import Mathlib

/-!
Verification of the voxel world store and spatial interaction layer of the
`quirixa/architect` repository against its natural-language specification.

The development shallowly embeds the TypeScript sources:
  * `src/data/blockRegistry.ts` (block catalog, serialized world shape,
    `importWorldFromJSON`),
  * `src/hooks/useVoxelWorld.ts` (the world store: place/remove/get/clear/
    export/import plus the `version` revision counter),
  * `src/components/editor/VoxelCanvas.tsx` (coordinate conversion, the two
    ray-to-grid intersection routines, and the FPS movement integration).

The JavaScript `Map` keyed by the string `positionToKey x y z = "x,y,z"` is
embedded as an insertion-ordered association list keyed by the integer triple
itself; `positionToKey` is injective on integer triples, so the two key
spaces are in bijection and `keyToPosition` is the identity in this model.
Numbers that the code keeps as JS doubles but only ever uses with exact
half-unit arithmetic (coordinate conversion, raycasting, thrust integration)
are embedded as `ℚ` (or `ℝ` where trigonometry occurs); all quantities in
play are exactly representable doubles, so no rounding is lost.
-/

namespace Architect

/-! ## Block catalog, from `src/data/blockRegistry.ts` -/

/-- A catalog entry (`BlockDefinition` in `blockRegistry.ts`).  The optional
`transparent?` field defaults to `false` for entries that omit it. -/
structure BlockDefinition where
  id : ℕ
  name : String
  category : String
  texture : String
  solid : Bool
  collision : Bool
  transparent : Bool := false
  deriving DecidableEq, Repr

/-- The full static registry (`BLOCK_REGISTRY` in `blockRegistry.ts`). -/
def BLOCK_REGISTRY : List BlockDefinition := [
  ⟨1, "Stone", "full-blocks", "#808080", true, true, false⟩,
  ⟨2, "Cobblestone", "full-blocks", "#696969", true, true, false⟩,
  ⟨3, "Brick", "full-blocks", "#B35A3C", true, true, false⟩,
  ⟨4, "Concrete", "full-blocks", "#9E9E9E", true, true, false⟩,
  ⟨5, "Metal", "full-blocks", "#71797E", true, true, false⟩,
  ⟨6, "Wood Planks", "full-blocks", "#A0785A", true, true, false⟩,
  ⟨7, "Dark Wood", "full-blocks", "#5D4037", true, true, false⟩,
  ⟨8, "Sandstone", "full-blocks", "#D4C4A8", true, true, false⟩,
  ⟨9, "Obsidian", "full-blocks", "#1A1A2E", true, true, false⟩,
  ⟨10, "Glass", "full-blocks", "#E0F7FA", true, true, true⟩,
  ⟨11, "Dirt", "full-blocks", "#8B5A2B", true, true, false⟩,
  ⟨12, "Grass", "full-blocks", "#567D46", true, true, false⟩,
  ⟨20, "Stone Slab", "slabs", "#808080", true, true, false⟩,
  ⟨21, "Wood Slab", "slabs", "#A0785A", true, true, false⟩,
  ⟨22, "Concrete Slab", "slabs", "#9E9E9E", true, true, false⟩,
  ⟨23, "Brick Slab", "slabs", "#B35A3C", true, true, false⟩,
  ⟨24, "Metal Slab", "slabs", "#71797E", true, true, false⟩,
  ⟨25, "Sandstone Slab", "slabs", "#D4C4A8", true, true, false⟩,
  ⟨30, "Wall Torch", "wall-items", "#FFA500", false, false, false⟩,
  ⟨31, "Wall Sign", "wall-items", "#A0785A", false, false, false⟩,
  ⟨32, "Wall Lamp", "wall-items", "#FFE4B5", false, false, false⟩,
  ⟨33, "Wall Vent", "wall-items", "#4A4A4A", false, false, false⟩,
  ⟨34, "Wall Panel", "wall-items", "#6E6E6E", false, false, false⟩,
  ⟨35, "Wall Screen", "wall-items", "#1E90FF", false, false, false⟩,
  ⟨40, "Crate", "decorations", "#8B4513", true, true, false⟩,
  ⟨41, "Barrel", "decorations", "#654321", true, true, false⟩,
  ⟨42, "Box", "decorations", "#D2691E", true, true, false⟩,
  ⟨43, "Computer", "decorations", "#2F4F4F", true, true, false⟩,
  ⟨44, "Chair", "decorations", "#3E3E3E", false, true, false⟩,
  ⟨45, "Table", "decorations", "#5D4E37", false, true, false⟩,
  ⟨46, "Plant Pot", "decorations", "#228B22", false, true, false⟩,
  ⟨47, "Trash Can", "decorations", "#4A4A4A", false, true, false⟩,
  ⟨50, "Floor Tile", "tiles", "#C0C0C0", true, true, false⟩,
  ⟨51, "Checkered Tile", "tiles", "#E8E8E8", true, true, false⟩,
  ⟨52, "Industrial Tile", "tiles", "#505050", true, true, false⟩,
  ⟨53, "Hazard Tile", "tiles", "#FFD700", true, true, false⟩,
  ⟨54, "Grate", "tiles", "#3C3C3C", true, true, true⟩,
  ⟨55, "Carpet", "tiles", "#8B0000", true, true, false⟩,
  ⟨60, "Stone Pillar", "pillars", "#A0A0A0", true, true, false⟩,
  ⟨61, "Metal Pillar", "pillars", "#5A5A5A", true, true, false⟩,
  ⟨62, "Wood Pillar", "pillars", "#8B7355", true, true, false⟩,
  ⟨63, "Concrete Pillar", "pillars", "#BEBEBE", true, true, false⟩,
  ⟨64, "Industrial Beam", "pillars", "#4A4A4A", true, true, false⟩,
  ⟨70, "White", "solid-colors", "#FFFFFF", true, true, false⟩,
  ⟨71, "Black", "solid-colors", "#1A1A1A", true, true, false⟩,
  ⟨72, "Red", "solid-colors", "#DC143C", true, true, false⟩,
  ⟨73, "Blue", "solid-colors", "#1E90FF", true, true, false⟩,
  ⟨74, "Green", "solid-colors", "#32CD32", true, true, false⟩,
  ⟨75, "Yellow", "solid-colors", "#FFD700", true, true, false⟩,
  ⟨76, "Orange", "solid-colors", "#FF8C00", true, true, false⟩,
  ⟨77, "Purple", "solid-colors", "#8B008B", true, true, false⟩,
  ⟨78, "Cyan", "solid-colors", "#00CED1", true, true, false⟩,
  ⟨79, "Pink", "solid-colors", "#FF69B4", true, true, false⟩,
  ⟨80, "Gray", "solid-colors", "#808080", true, true, false⟩,
  ⟨81, "Brown", "solid-colors", "#8B4513", true, true, false⟩]

/-- Catalog lookup (`BLOCK_BY_ID.get(id)`); ids are unique in the registry,
so `find?` agrees with the JS `Map` built from it. -/
def BLOCK_BY_ID (id : ℕ) : Option BlockDefinition :=
  BLOCK_REGISTRY.find? (fun b => b.id = id)

/-! ## Serialized world shape (`WorldData` in `blockRegistry.ts`) -/

/-- The `size` triple of a `WorldData`. -/
structure WSize where
  x : ℤ
  y : ℤ
  z : ℤ
  deriving DecidableEq, Repr

/-- One element of the `blocks` array of a `WorldData`. -/
structure BlockEntry where
  x : ℤ
  y : ℤ
  z : ℤ
  id : ℕ
  deriving DecidableEq, Repr

/-- `WorldData` from `blockRegistry.ts` (the uninterpreted `metadata` map, which the
core round-trips but never reads, is omitted). -/
structure WorldData where
  version : String
  size : WSize
  blocks : List BlockEntry
  deriving DecidableEq, Repr

/-- `createEmptyWorld` from `blockRegistry.ts`. -/
def createEmptyWorld (sizeX sizeY sizeZ : ℤ) : WorldData :=
  ⟨"1.0.0", ⟨sizeX, sizeY, sizeZ⟩, []⟩

/-! ## The JS `Map` keyed by `positionToKey`, as an association list -/

/-- An integer grid coordinate; stands for the string key `"x,y,z"` of the
JS `Map` (the encoding is injective on integer triples). -/
abbrev Coord := ℤ × ℤ × ℤ

/-- The block map: an insertion-ordered association list with the semantics
of a JS `Map` (keys unique on every reachable state). -/
abbrev BlockMap := List (Coord × ℕ)

/-- `Map.get`: value of the first entry with the key. -/
def mapGet : BlockMap → Coord → Option ℕ
  | [], _ => none
  | e :: rest, k => if e.1 = k then some e.2 else mapGet rest k

/-- `Map.has`. -/
def mapHas (m : BlockMap) (k : Coord) : Bool :=
  (mapGet m k).isSome

/-- `Map.set`: replaces the entry with the key in place, or appends a new
entry in insertion order. -/
def mapSet : BlockMap → Coord → ℕ → BlockMap
  | [], k, v => [(k, v)]
  | e :: rest, k, v => if e.1 = k then (k, v) :: rest else e :: mapSet rest k v

/-- `Map.delete`: removes the entry with the key. -/
def mapDelete : BlockMap → Coord → BlockMap
  | [], _ => []
  | e :: rest, k => if e.1 = k then rest else e :: mapDelete rest k

/-- The keys of a block map, in insertion order. -/
def mapKeys (m : BlockMap) : List Coord := m.map Prod.fst

/-! ## World store (`useVoxelWorld.ts`)

The hook's state is `worldData` (React state), the mutable `blockMapRef`,
and the `version` counter.  Each operation is embedded as a function from
the state to the new state (and its returned Boolean, where it returns
one). -/

/-- The state owned by `useVoxelWorld`. -/
structure WorldStore where
  worldData : WorldData
  blockMap : BlockMap
  version : ℕ
  deriving DecidableEq, Repr

/-- A store as `useVoxelWorld(initialSize)` creates it: empty map, version 0,
`worldData` from `createEmptyWorld`. -/
def mkStore (sx sy sz : ℤ) : WorldStore :=
  ⟨createEmptyWorld sx sy sz, [], 0⟩

/-- Well-formedness of a store: the map's keys are unique.  Every state a JS
`Map` can reach has this property, and every operation preserves it. -/
def WF (st : WorldStore) : Prop := (mapKeys st.blockMap).Nodup

instance : DecidablePred WF := fun st =>
  inferInstanceAs (Decidable (mapKeys st.blockMap).Nodup)

/-- The bounds test of `placeBlock` (`useVoxelWorld.ts` lines 34-38):
`x < 0 || x >= size.x || y < 0 || y >= size.y || z < 0 || z >= size.z`. -/
def outOfBounds (s : WSize) (x y z : ℤ) : Bool :=
  x < 0 || s.x ≤ x || y < 0 || s.y ≤ y || z < 0 || s.z ≤ z

/-- `placeBlock` (`useVoxelWorld.ts` lines 27-43): reject an id that is not
in the catalog, then reject an out-of-bounds coordinate, else upsert and bump
`version`.  Returns the new state and the returned Boolean. -/
def placeBlock (st : WorldStore) (x y z : ℤ) (blockId : ℕ) :
    WorldStore × Bool :=
  match BLOCK_BY_ID blockId with
  | none => (st, false)
  | some _ =>
    if outOfBounds st.worldData.size x y z then (st, false)
    else ({ st with
              blockMap := mapSet st.blockMap (x, y, z) blockId
              version := st.version + 1 },
          true)

/-- `removeBlock` (`useVoxelWorld.ts` lines 45-53). -/
def removeBlock (st : WorldStore) (x y z : ℤ) : WorldStore × Bool :=
  if mapHas st.blockMap (x, y, z) then
    ({ st with
         blockMap := mapDelete st.blockMap (x, y, z)
         version := st.version + 1 },
     true)
  else (st, false)

/-- `getBlock` (`useVoxelWorld.ts` lines 55-58). -/
def getBlock (st : WorldStore) (x y z : ℤ) : Option ℕ :=
  mapGet st.blockMap (x, y, z)

/-- `getBlockCount` (`useVoxelWorld.ts` lines 96-98): `Map.size`. -/
def getBlockCount (st : WorldStore) : ℕ :=
  st.blockMap.length

/-- `clearWorld` (`useVoxelWorld.ts` lines 69-72). -/
def clearWorld (st : WorldStore) : WorldStore :=
  { st with blockMap := [], version := st.version + 1 }

/-- `exportWorld` (`useVoxelWorld.ts` lines 74-84): materializes every map
entry as an `{x,y,z,id}` tuple (iteration order = insertion order) and
spreads it over the current `worldData`. -/
def exportWorld (st : WorldStore) : WorldData :=
  { st.worldData with
      blocks := st.blockMap.map (fun e => ⟨e.1.1, e.1.2.1, e.1.2.2, e.2⟩) }

/-- `importWorld` (`useVoxelWorld.ts` lines 86-94): clears the map, `set`s
every entry of `data.blocks` in array order, replaces `worldData` wholesale
and bumps `version`. -/
def importWorld (st : WorldStore) (data : WorldData) : WorldStore :=
  { worldData := data
    blockMap := data.blocks.foldl (fun m b => mapSet m (b.x, b.y, b.z) b.id) []
    version := st.version + 1 }


/-! ## Association-list lemmas for the JS `Map` embedding -/

theorem mapGet_cons (e : Coord × ℕ) (rest : BlockMap) (k : Coord) :
    mapGet (e :: rest) k = if e.1 = k then some e.2 else mapGet rest k := rfl

theorem mapSet_cons (e : Coord × ℕ) (rest : BlockMap) (k : Coord) (v : ℕ) :
    mapSet (e :: rest) k v =
      if e.1 = k then (k, v) :: rest else e :: mapSet rest k v := rfl

theorem mapDelete_cons (e : Coord × ℕ) (rest : BlockMap) (k : Coord) :
    mapDelete (e :: rest) k = if e.1 = k then rest else e :: mapDelete rest k :=
  rfl

theorem mapGet_set_self (m : BlockMap) (k : Coord) (v : ℕ) :
    mapGet (mapSet m k v) k = some v := by
  induction m with
  | nil => simp [mapSet, mapGet]
  | cons e rest ih =>
    by_cases h : e.1 = k
    · rw [mapSet_cons, if_pos h, mapGet_cons, if_pos rfl]
    · rw [mapSet_cons, if_neg h, mapGet_cons, if_neg h]
      exact ih

theorem mapGet_set_ne (m : BlockMap) (k c : Coord) (v : ℕ) (h : c ≠ k) :
    mapGet (mapSet m k v) c = mapGet m c := by
  induction m with
  | nil =>
    show mapGet [(k, v)] c = mapGet [] c
    rw [mapGet_cons, if_neg (fun hk => h hk.symm)]
  | cons e rest ih =>
    by_cases he : e.1 = k
    · rw [mapSet_cons, if_pos he, mapGet_cons, mapGet_cons,
        if_neg (fun hk : k = c => h hk.symm),
        if_neg (fun hc : e.1 = c => h (he ▸ hc).symm)]
    · rw [mapSet_cons, if_neg he, mapGet_cons, mapGet_cons, ih]

theorem mapSet_set_same (m : BlockMap) (k : Coord) (v : ℕ) :
    mapSet (mapSet m k v) k v = mapSet m k v := by
  induction m with
  | nil =>
    show mapSet [(k, v)] k v = [(k, v)]
    rw [mapSet_cons, if_pos rfl]
  | cons e rest ih =>
    by_cases h : e.1 = k
    · rw [mapSet_cons, if_pos h, mapSet_cons, if_pos rfl]
    · rw [mapSet_cons, if_neg h, mapSet_cons, if_neg h, ih]

theorem length_mapSet (m : BlockMap) (k : Coord) (v : ℕ) :
    (mapSet m k v).length = if mapHas m k then m.length else m.length + 1 := by
  induction m with
  | nil => simp [mapSet, mapHas, mapGet]
  | cons e rest ih =>
    by_cases h : e.1 = k
    · rw [mapSet_cons, if_pos h]
      have : mapHas (e :: rest) k = true := by
        simp [mapHas, mapGet_cons, if_pos h]
      rw [if_pos this]
      simp
    · rw [mapSet_cons, if_neg h]
      have hh : mapHas (e :: rest) k = mapHas rest k := by
        simp [mapHas, mapGet_cons, if_neg h]
      rw [List.length_cons, List.length_cons, hh, ih]
      by_cases hr : mapHas rest k <;> simp [hr]

theorem mapKeys_set (m : BlockMap) (k : Coord) (v : ℕ) :
    mapKeys (mapSet m k v) =
      if mapHas m k then mapKeys m else mapKeys m ++ [k] := by
  induction m with
  | nil => simp [mapSet, mapKeys, mapHas, mapGet]
  | cons e rest ih =>
    by_cases h : e.1 = k
    · rw [mapSet_cons, if_pos h]
      have : mapHas (e :: rest) k = true := by
        simp [mapHas, mapGet_cons, if_pos h]
      rw [if_pos this]
      simp [mapKeys, h]
    · rw [mapSet_cons, if_neg h]
      have hh : mapHas (e :: rest) k = mapHas rest k := by
        simp [mapHas, mapGet_cons, if_neg h]
      rw [hh]
      simp only [mapKeys, List.map_cons] at ih ⊢
      rw [ih]
      by_cases hr : mapHas rest k <;> simp [hr]

theorem mapGet_eq_none_of_not_mem (m : BlockMap) (k : Coord)
    (h : k ∉ mapKeys m) : mapGet m k = none := by
  induction m with
  | nil => simp [mapGet]
  | cons e rest ih =>
    simp only [mapKeys, List.map_cons, List.mem_cons] at h
    push_neg at h
    rw [mapGet_cons, if_neg (fun he : e.1 = k => h.1 he.symm)]
    exact ih (by simpa [mapKeys] using h.2)

theorem mapHas_iff_mem_keys (m : BlockMap) (k : Coord) :
    mapHas m k = true ↔ k ∈ mapKeys m := by
  induction m with
  | nil => simp [mapHas, mapGet, mapKeys]
  | cons e rest ih =>
    by_cases h : e.1 = k
    · simp only [mapHas, mapGet_cons, if_pos h, Option.isSome_some, mapKeys,
        List.map_cons, List.mem_cons]
      exact ⟨fun _ => Or.inl h.symm, fun _ => trivial⟩
    · simp only [mapHas, mapGet_cons, if_neg h, mapKeys, List.map_cons,
        List.mem_cons]
      simp only [mapHas, mapKeys] at ih
      rw [ih]
      exact ⟨Or.inr, fun hk => hk.elim (fun hk => absurd hk.symm h) id⟩

theorem nodup_mapKeys_set (m : BlockMap) (k : Coord) (v : ℕ)
    (h : (mapKeys m).Nodup) : (mapKeys (mapSet m k v)).Nodup := by
  rw [mapKeys_set]
  by_cases hh : mapHas m k
  · simpa [hh]
  · rw [if_neg hh]
    have hk : k ∉ mapKeys m := fun hmem =>
      hh ((mapHas_iff_mem_keys m k).mpr hmem)
    simp [List.nodup_append, h, hk]

theorem mapGet_delete_self (m : BlockMap) (k : Coord)
    (h : (mapKeys m).Nodup) : mapGet (mapDelete m k) k = none := by
  induction m with
  | nil => simp [mapDelete, mapGet]
  | cons e rest ih =>
    simp only [mapKeys, List.map_cons, List.nodup_cons] at h
    by_cases he : e.1 = k
    · rw [mapDelete_cons, if_pos he]
      exact mapGet_eq_none_of_not_mem rest k (he ▸ h.1)
    · rw [mapDelete_cons, if_neg he, mapGet_cons, if_neg he]
      exact ih h.2

theorem mapGet_delete_ne (m : BlockMap) (k c : Coord) (h : c ≠ k) :
    mapGet (mapDelete m k) c = mapGet m c := by
  induction m with
  | nil => simp [mapDelete]
  | cons e rest ih =>
    by_cases he : e.1 = k
    · rw [mapDelete_cons, if_pos he, mapGet_cons,
        if_neg (fun hc : e.1 = c => h ((he ▸ hc : k = c)).symm)]
    · rw [mapDelete_cons, if_neg he, mapGet_cons, mapGet_cons, ih]

theorem length_mapDelete (m : BlockMap) (k : Coord)
    (h : mapHas m k = true) : (mapDelete m k).length + 1 = m.length := by
  induction m with
  | nil => simp [mapHas, mapGet] at h
  | cons e rest ih =>
    by_cases he : e.1 = k
    · rw [mapDelete_cons, if_pos he, List.length_cons]
    · simp only [mapHas, mapGet_cons, if_neg he] at h
      rw [mapDelete_cons, if_neg he, List.length_cons, List.length_cons,
        ih h]

theorem mapHas_append (m m' : BlockMap) (k : Coord) :
    mapHas (m ++ m') k = (mapHas m k || mapHas m' k) := by
  induction m with
  | nil => simp [mapHas, mapGet]
  | cons e rest ih =>
    by_cases h : e.1 = k
    · simp only [List.cons_append, mapHas, mapGet_cons, if_pos h,
        Option.isSome_some, Bool.true_or]
    · simp only [List.cons_append, mapHas, mapGet_cons, if_neg h] at ih ⊢
      exact ih

theorem mapSet_not_has (m : BlockMap) (k : Coord) (v : ℕ)
    (h : mapHas m k = false) : mapSet m k v = m ++ [(k, v)] := by
  induction m with
  | nil => simp [mapSet]
  | cons e rest ih =>
    simp only [mapHas, mapGet_cons] at h
    by_cases he : e.1 = k
    · rw [if_pos he] at h
      simp at h
    · rw [if_neg he] at h
      rw [mapSet_cons, if_neg he, ih h, List.cons_append]

theorem find?_append {α : Type} (l₁ l₂ : List α) (p : α → Bool) :
    (l₁ ++ l₂).find? p =
      match l₁.find? p with
      | some a => some a
      | none => l₂.find? p := by
  induction l₁ with
  | nil => simp
  | cons a l ih =>
    by_cases h : p a
    · simp [List.find?, h]
    · simp only [List.cons_append, List.find?, h]
      simpa [h] using ih

/-- The map an `importWorld` builds: `Map.get` on the result is last-wins
over the imported array. -/
theorem mapGet_foldl_set (l : List BlockEntry) (m : BlockMap) (c : Coord) :
    mapGet (l.foldl (fun m b => mapSet m (b.x, b.y, b.z) b.id) m) c =
      match l.reverse.find? (fun b => ((b.x, b.y, b.z) : Coord) = c) with
      | some b => some b.id
      | none => mapGet m c := by
  induction l generalizing m with
  | nil => simp
  | cons b l ih =>
    rw [List.foldl_cons, ih, List.reverse_cons, find?_append]
    cases hf : l.reverse.find? (fun b => ((b.x, b.y, b.z) : Coord) = c) with
    | some b' => rfl
    | none =>
      by_cases hb : ((b.x, b.y, b.z) : Coord) = c
      · simp [List.find?, hb, mapGet_set_self]
      · simp [List.find?, hb, mapGet_set_ne _ _ _ _ (fun hc => hb hc.symm)]

theorem nodup_mapKeys_foldl_set (l : List BlockEntry) (m : BlockMap)
    (h : (mapKeys m).Nodup) :
    (mapKeys
      (l.foldl (fun m b => mapSet m (b.x, b.y, b.z) b.id) m)).Nodup := by
  induction l generalizing m with
  | nil => exact h
  | cons b l ih => exact ih _ (nodup_mapKeys_set _ _ _ h)

/-- Folding `Map.set` over pairwise-fresh keys appends them in order. -/
theorem foldl_set_eq_append (l : List (Coord × ℕ)) (m : BlockMap)
    (hdisj : ∀ k ∈ l.map Prod.fst, mapHas m k = false)
    (hnd : (l.map Prod.fst).Nodup) :
    l.foldl (fun m e => mapSet m e.1 e.2) m = m ++ l := by
  induction l generalizing m with
  | nil => simp
  | cons e l ih =>
    simp only [List.map_cons, List.nodup_cons, List.mem_cons] at hnd hdisj
    rw [List.foldl_cons, mapSet_not_has m e.1 e.2 (hdisj e.1 (Or.inl rfl)),
      ih (m ++ [(e.1, e.2)])]
    · simp
    · intro k hk
      rw [mapHas_append]
      have h1 : mapHas m k = false := hdisj k (Or.inr hk)
      have h2 : mapHas [(e.1, e.2)] k = false := by
        have : ¬e.1 = k := fun he => hnd.1 (he ▸ hk)
        simp [mapHas, mapGet, this]
      rw [h1, h2]
      rfl
    · exact hnd.2

/-! ## Coordinate conversion (`VoxelCanvas.tsx`) -/

/-- `WORLD_SIZE` (`VoxelCanvas.tsx` line 29). -/
def WORLD_SIZE : ℚ := 64

/-- Grid to continuous space (`VoxelCanvas.tsx` lines 454-458): the mesh of
cell `(x,y,z)` is centered at
`(x - WORLD_SIZE/2 + 0.5, y + 0.5, z - WORLD_SIZE/2 + 0.5)`. -/
def gridToWorld (x y z : ℤ) : ℚ × ℚ × ℚ :=
  ((x : ℚ) - WORLD_SIZE / 2 + 1/2, (y : ℚ) + 1/2,
   (z : ℚ) - WORLD_SIZE / 2 + 1/2)

/-- Continuous space to grid: `Math.floor(w + WORLD_SIZE/2)` on x and z as in
`getIntersection`'s ground branch (`VoxelCanvas.tsx` lines 503-505), and
`Math.floor` on y (spec §4.3; the ground branch pins y to elevation 0,
which is `⌊wy⌋` for a point on the plane `y = 0`). -/
def worldToGrid (wx wy wz : ℚ) : Coord :=
  (⌊wx + WORLD_SIZE / 2⌋, ⌊wy⌋, ⌊wz + WORLD_SIZE / 2⌋)

theorem floor_intCast_add_half (a : ℤ) : ⌊(a : ℚ) + 1/2⌋ = a := by
  rw [add_comm, Int.floor_add_int]
  norm_num

/-! ## The two block-face grid derivations (`VoxelCanvas.tsx`)

Both intersection routines derive the placement cell of a struck block from
the struck mesh's center `pos` and the transformed face normal. -/

/-- Block branch of `getFPSIntersection` (`VoxelCanvas.tsx` lines 114-116):
`floor(pos + normal + WORLD_SIZE/2)` on x and z, and
`floor(pos.y + normal.y - 0.5)` on y. -/
def getFPSIntersection_blockGrid (pos nrm : ℚ × ℚ × ℚ) : Coord :=
  (⌊pos.1 + nrm.1 + WORLD_SIZE / 2⌋,
   ⌊pos.2.1 + nrm.2.1 - 1/2⌋,
   ⌊pos.2.2 + nrm.2.2 + WORLD_SIZE / 2⌋)

/-- Block branch of the orbit-mode `getIntersection` (`VoxelCanvas.tsx`
lines 510-512). -/
def getIntersection_blockGrid (pos nrm : ℚ × ℚ × ℚ) : Coord :=
  (⌊pos.1 + nrm.1 + WORLD_SIZE / 2⌋,
   ⌊pos.2.1 + nrm.2.1 - 1/2⌋,
   ⌊pos.2.2 + nrm.2.2 + WORLD_SIZE / 2⌋)

/-! ## Ray-to-grid query

The repository delegates the geometric ray test itself to the rendering
engine (three.js `Raycaster`), which is not part of the repository; the
spec (§4.3) specifies it: cast the ray against the axis-aligned unit cell
of every occupied coordinate plus the implicit ground plane at elevation 0
and select the closest positive-distance hit.  The definitions marked
"Modelled from the spec" below embed that; the grid derivation applied to
the resulting hit is taken from the source (`getIntersection`). -/

/-- A ray: origin and direction components. -/
structure Ray where
  ox : ℚ
  oy : ℚ
  oz : ℚ
  dx : ℚ
  dy : ℚ
  dz : ℚ
  deriving DecidableEq, Repr

/-- Modelled from the spec: one axis of the standard slab test against the
engine's ray-box intersection (three.js, not in the repository).  Returns
`none` on a miss; otherwise the optional entry parameter with the outward
normal of the entry face, and the optional exit parameter (`none` stands
for an unbounded side, which happens when the direction component is 0 and
the origin lies inside the slab). -/
def axisSlab (o d mn mx : ℚ) (nLow nHigh : ℚ × ℚ × ℚ) :
    Option (Option (ℚ × (ℚ × ℚ × ℚ)) × Option ℚ) :=
  if d = 0 then
    if mn ≤ o ∧ o ≤ mx then some (none, none) else none
  else if 0 < d then
    some (some ((mn - o) / d, nLow), some ((mx - o) / d))
  else
    some (some ((mx - o) / d, nHigh), some ((mn - o) / d))

/-- Larger of two optional entry parameters (`none` = unbounded below). -/
def combLo :
    Option (ℚ × (ℚ × ℚ × ℚ)) → Option (ℚ × (ℚ × ℚ × ℚ)) →
      Option (ℚ × (ℚ × ℚ × ℚ))
  | none, b => b
  | some a, none => some a
  | some a, some b => if a.1 < b.1 then some b else some a

/-- Smaller of two optional exit parameters (`none` = unbounded above). -/
def combHi : Option ℚ → Option ℚ → Option ℚ
  | none, b => b
  | some a, none => some a
  | some a, some b => if a ≤ b then some a else some b

/-- Whether an entry parameter does not exceed an optional exit bound. -/
def belowHi (t : ℚ) : Option ℚ → Bool
  | none => true
  | some th => t ≤ th

/-- Modelled from the spec: ray versus the axis-aligned unit cube centered
at `c`, by the slab test; a hit is the positive entry parameter with the
outward normal of the entry face (a ray starting inside the cube reports no
surface hit). -/
def rayBox (r : Ray) (c : ℚ × ℚ × ℚ) : Option (ℚ × (ℚ × ℚ × ℚ)) :=
  match axisSlab r.ox r.dx (c.1 - 1/2) (c.1 + 1/2) (-1, 0, 0) (1, 0, 0),
        axisSlab r.oy r.dy (c.2.1 - 1/2) (c.2.1 + 1/2) (0, -1, 0) (0, 1, 0),
        axisSlab r.oz r.dz (c.2.2 - 1/2) (c.2.2 + 1/2) (0, 0, -1) (0, 0, 1)
      with
  | some sx, some sy, some sz =>
    match combLo (combLo sx.1 sy.1) sz.1, combHi (combHi sx.2 sy.2) sz.2 with
    | some lo, hi => if 0 < lo.1 ∧ belowHi lo.1 hi then some lo else none
    | none, _ => none
  | _, _, _ => none

/-- Modelled from the spec: hit of the implicit ground plane at elevation 0
(`VoxelCanvas.tsx` adds the ground mesh at `y = 0`); yields the distance
parameter and the hit point's x and z. -/
def groundCast (r : Ray) : Option (ℚ × ℚ × ℚ) :=
  if r.dy = 0 then none
  else
    if 0 < -r.oy / r.dy then
      some (-r.oy / r.dy, r.ox + -r.oy / r.dy * r.dx,
        r.oz + -r.oy / r.dy * r.dz)
    else none

/-- One raw intersection: a struck block mesh (with its face normal and the
stored grid coordinate `userData.blockKey`) or the ground plane (with the
hit point's x and z). -/
inductive RawHit where
  | block (t : ℚ) (nrm : ℚ × ℚ × ℚ) (key : Coord)
  | ground (t : ℚ) (px pz : ℚ)
  deriving DecidableEq, Repr

/-- Distance parameter of a raw hit. -/
def RawHit.t : RawHit → ℚ
  | .block t _ _ => t
  | .ground t _ _ => t

/-- Modelled from the spec: cast against the ground plane and every block
mesh (each centered at `gridToWorld` of its coordinate, as the mesh effect
of `VoxelCanvas.tsx` lines 453-462 places and tags them) and keep the
closest positive-distance hit, as three.js `intersectObjects` sorted by
distance would report first. -/
def castRay (r : Ray) (blocks : List Coord) : Option RawHit :=
  ((match groundCast r with
    | some (t, px, pz) => [RawHit.ground t px pz]
    | none => []) ++
   blocks.filterMap (fun c =>
     (rayBox r (gridToWorld c.1 c.2.1 c.2.2)).map
       (fun h => RawHit.block h.1 h.2 c))).foldl
    (fun best h =>
      match best with
      | none => some h
      | some b => if h.t < b.t then some h else some b)
    none

/-- The record `getIntersection` returns (`VoxelCanvas.tsx` lines 515-521):
the derived grid cell, whether a block (rather than the ground) was struck,
and the struck block's stored coordinate. -/
structure GridHit where
  gridX : ℤ
  gridY : ℤ
  gridZ : ℤ
  isBlock : Bool
  blockKey : Option Coord
  deriving DecidableEq, Repr

/-- `getIntersection` (`VoxelCanvas.tsx` lines 480-525): the nearest hit
(raycast modelled from the spec, see `castRay`) put through the source's
grid derivation — ground branch lines 502-505, block branch lines 506-513
with `pos` the struck mesh's center and `blockKey` its stored coordinate. -/
def getIntersection (r : Ray) (blocks : List Coord) : Option GridHit :=
  (castRay r blocks).map (fun h =>
    match h with
    | .ground _ px pz =>
      ⟨⌊px + WORLD_SIZE / 2⌋, 0, ⌊pz + WORLD_SIZE / 2⌋, false, none⟩
    | .block _ nrm key =>
      ⟨(getIntersection_blockGrid (gridToWorld key.1 key.2.1 key.2.2) nrm).1,
       (getIntersection_blockGrid (gridToWorld key.1 key.2.1 key.2.2) nrm).2.1,
       (getIntersection_blockGrid (gridToWorld key.1 key.2.1 key.2.2) nrm).2.2,
       true, some key⟩)

/-! ## FPS movement integration (`VoxelCanvas.tsx` animate loop) -/

/-- `FPS_MOVE_SPEED` (`VoxelCanvas.tsx` line 31). -/
def FPS_MOVE_SPEED : ℝ := 20

/-- The six Boolean thrust flags (`moveStateRef` in `VoxelCanvas.tsx`). -/
structure MoveState where
  forward : Bool
  backward : Bool
  left : Bool
  right : Bool
  up : Bool
  down : Bool
  deriving DecidableEq, Repr

/-- `Number(flag)` of the source: 1 for a pressed flag, 0 otherwise. -/
def flagNum : Bool → ℝ
  | true => 1
  | false => 0

/-- The per-step velocity increment of the FPS integrator (`VoxelCanvas.tsx`
lines 311-326, before the damping factor is applied): horizontal forward and
right unit vectors from the yaw, input components from the flags, and
`velocity += move * FPS_MOVE_SPEED * delta` on each axis.  Returns the
`(x, y, z)` increment. -/
noncomputable def fpsVelocityDelta (yaw delta : ℝ) (m : MoveState) :
    ℝ × ℝ × ℝ :=
  let forwardX := -Real.sin yaw
  let forwardZ := -Real.cos yaw
  let rightX := Real.cos yaw
  let rightZ := -Real.sin yaw
  let inputZ := flagNum m.forward - flagNum m.backward
  let inputX := flagNum m.right - flagNum m.left
  let inputY := flagNum m.up - flagNum m.down
  ((forwardX * inputZ + rightX * inputX) * FPS_MOVE_SPEED * delta,
   inputY * FPS_MOVE_SPEED * delta,
   (forwardZ * inputZ + rightZ * inputX) * FPS_MOVE_SPEED * delta)

/-! ## `importWorldFromJSON` (`blockRegistry.ts`) and the import flow -/

/-- The parsed JSON object at `importWorldFromJSON`'s validation site, with
each top-level field either absent (JS `undefined`) or of its declared
shape.  JS truthiness on these shapes: an object or an array is truthy, a
string is truthy iff it is nonempty, and an absent field is falsy. -/
structure ParsedWorld where
  version : Option String
  size : Option WSize
  blocks : Option (List BlockEntry)
  deriving DecidableEq, Repr

/-- `importWorldFromJSON` (`blockRegistry.ts` lines 140-146) after
`JSON.parse`: throws `'Invalid world data format'` when
`!data.version || !data.size || !data.blocks`, otherwise returns the parsed
structure as-is (no validation of block ids against the catalog). -/
def importWorldFromJSON (d : ParsedWorld) : Except String WorldData :=
  match d.version, d.size, d.blocks with
  | some v, some s, some b =>
    if v = "" then Except.error "Invalid world data format"
    else Except.ok ⟨v, s, b⟩
  | _, _, _ => Except.error "Invalid world data format"

/-- Whether `importWorldFromJSON` threw. -/
def importFails (d : ParsedWorld) : Bool :=
  match importWorldFromJSON d with
  | .error _ => true
  | .ok _ => false

/-- The editor's import flow (`handleFileChange` in `VoxelEditor.tsx`):
parse-and-validate first, and only on success call `importWorld`; a thrown
error is caught (a toast is shown) and the store is left untouched. -/
def handleImportFile (st : WorldStore) (d : ParsedWorld) : WorldStore :=
  match importWorldFromJSON d with
  | .error _ => st
  | .ok w => importWorld st w

/-! ## Claim theorems -/

/-- C1: `placeBlock` is rejected — it returns `false` and leaves the whole
store, hence the block mapping, `count()` and the revision, unchanged —
whenever the id is not in the catalog or the coordinate is out of bounds on
some axis (in particular at `(-1, 0, 0)` with the valid id 1); on success
the mapping is upserted at the coordinate, overwriting any existing block
there and leaving every other coordinate alone, and the revision is
incremented. -/
theorem placeBlock_validation_spec (st : WorldStore) (x y z : ℤ) (id : ℕ) :
    (BLOCK_BY_ID id = none ∨ outOfBounds st.worldData.size x y z = true →
      placeBlock st x y z id = (st, false))
    ∧ (BLOCK_BY_ID id ≠ none → outOfBounds st.worldData.size x y z = false →
        (placeBlock st x y z id).2 = true
        ∧ (placeBlock st x y z id).1.blockMap = mapSet st.blockMap (x, y, z) id
        ∧ getBlock (placeBlock st x y z id).1 x y z = some id
        ∧ (∀ c : Coord, c ≠ (x, y, z) →
            mapGet (placeBlock st x y z id).1.blockMap c =
              mapGet st.blockMap c)
        ∧ (placeBlock st x y z id).1.version = st.version + 1)
    ∧ placeBlock st (-1) 0 0 1 = (st, false) := by
  refine ⟨?_, ?_, ?_⟩
  · rintro (h | h)
    · simp [placeBlock, h]
    · cases hb : BLOCK_BY_ID id with
      | none => simp [placeBlock, hb]
      | some b => simp [placeBlock, hb, h]
  · intro h1 h2
    cases hb : BLOCK_BY_ID id with
    | none => exact absurd hb h1
    | some b =>
      have hplace : placeBlock st x y z id =
          ({ st with
               blockMap := mapSet st.blockMap (x, y, z) id
               version := st.version + 1 },
           true) := by
        simp [placeBlock, hb, h2]
      rw [hplace]
      exact ⟨rfl, rfl, mapGet_set_self _ _ _,
        fun c hc => mapGet_set_ne _ _ _ _ hc, rfl⟩
  · have hb : BLOCK_BY_ID 1 =
        some ⟨1, "Stone", "full-blocks", "#808080", true, true, false⟩ := rfl
    have hoob : outOfBounds st.worldData.size (-1) 0 0 = true := by
      simp [outOfBounds]
    simp [placeBlock, hb, hoob]

/-- C6: removing an absent coordinate returns `false` and leaves the store —
the mapping, `count()` and the revision — unchanged, also when done twice in
a row; removing a present coordinate returns `true`, deletes the entry
(leaving every other coordinate alone), drops `count()` by one and
increments the revision. -/
theorem removeBlock_spec (st : WorldStore) (x y z : ℤ) :
    (mapHas st.blockMap (x, y, z) = false →
      removeBlock st x y z = (st, false)
      ∧ removeBlock (removeBlock st x y z).1 x y z = (st, false))
    ∧ (WF st → mapHas st.blockMap (x, y, z) = true →
        (removeBlock st x y z).2 = true
        ∧ getBlock (removeBlock st x y z).1 x y z = none
        ∧ (∀ c : Coord, c ≠ (x, y, z) →
            mapGet (removeBlock st x y z).1.blockMap c =
              mapGet st.blockMap c)
        ∧ getBlockCount (removeBlock st x y z).1 + 1 = getBlockCount st
        ∧ (removeBlock st x y z).1.version = st.version + 1) := by
  constructor
  · intro h
    have h1 : removeBlock st x y z = (st, false) := by
      simp [removeBlock, h]
    exact ⟨h1, by rw [h1]; simp [removeBlock, h]⟩
  · intro hwf h
    have hrem : removeBlock st x y z =
        ({ st with
             blockMap := mapDelete st.blockMap (x, y, z)
             version := st.version + 1 },
         true) := by
      simp [removeBlock, h]
    rw [hrem]
    exact ⟨rfl, mapGet_delete_self _ _ hwf,
      fun c hc => mapGet_delete_ne _ _ _ hc, length_mapDelete _ _ h, rfl⟩

/-- C8 counterexample: re-placing the same block at the same coordinate is
not revision-neutral — on a world of size `(8,8,8)`, placing id 1 at
`(0,0,0)` and then placing it again changes the revision counter (the code
calls `setVersion(v => v + 1)` on every successful place, identical or
not). -/
theorem placeBlock_replay_bumps_revision :
    (placeBlock (placeBlock (mkStore 8 8 8) 0 0 0 1).1 0 0 0 1).1.version ≠
      (placeBlock (mkStore 8 8 8) 0 0 0 1).1.version := by decide

/-- C8 amended: after a successful `place(x,y,z,id)`, a second
`place(x,y,z,id)` succeeds and leaves the block mapping — hence
`get(x,y,z)` and `count()` — unchanged, but increments the revision counter
by one rather than leaving it unchanged. -/
theorem placeBlock_idempotent_amended (st : WorldStore) (x y z : ℤ)
    (id : ℕ) (h : (placeBlock st x y z id).2 = true) :
    (placeBlock (placeBlock st x y z id).1 x y z id).2 = true
    ∧ (placeBlock (placeBlock st x y z id).1 x y z id).1.blockMap =
        (placeBlock st x y z id).1.blockMap
    ∧ getBlock (placeBlock (placeBlock st x y z id).1 x y z id).1 x y z =
        some id
    ∧ getBlockCount (placeBlock (placeBlock st x y z id).1 x y z id).1 =
        getBlockCount (placeBlock st x y z id).1
    ∧ (placeBlock (placeBlock st x y z id).1 x y z id).1.version =
        (placeBlock st x y z id).1.version + 1 := by
  cases hb : BLOCK_BY_ID id with
  | none => simp [placeBlock, hb] at h
  | some b =>
    by_cases hoob : outOfBounds st.worldData.size x y z = true
    · simp [placeBlock, hb, hoob] at h
    · have h2 : outOfBounds st.worldData.size x y z = false :=
        Bool.not_eq_true _ ▸ hoob
      have hst1 : (placeBlock st x y z id).1 =
          { st with
              blockMap := mapSet st.blockMap (x, y, z) id
              version := st.version + 1 } := by
        simp [placeBlock, hb, h2]
      rw [hst1]
      have hplace2 :
          placeBlock
            { st with
                blockMap := mapSet st.blockMap (x, y, z) id
                version := st.version + 1 } x y z id =
          ({ st with
               blockMap := mapSet (mapSet st.blockMap (x, y, z) id) (x, y, z) id
               version := st.version + 1 + 1 },
           true) := by
        simp [placeBlock, hb, h2]
      rw [hplace2]
      refine ⟨rfl, ?_, ?_, ?_, rfl⟩
      · exact mapSet_set_same _ _ _
      · exact mapGet_set_self _ _ _
      · show (mapSet (mapSet st.blockMap (x, y, z) id) (x, y, z) id).length =
          (mapSet st.blockMap (x, y, z) id).length
        rw [mapSet_set_same]

/-- C8 witness: the amended statement at the concrete input of the
counterexample — world of size `(8,8,8)`, id 1 at `(0,0,0)`. -/
theorem placeBlock_idempotent_amended_witness :
    (placeBlock (placeBlock (mkStore 8 8 8) 0 0 0 1).1 0 0 0 1).2 = true
    ∧ (placeBlock (placeBlock (mkStore 8 8 8) 0 0 0 1).1 0 0 0 1).1.blockMap =
        (placeBlock (mkStore 8 8 8) 0 0 0 1).1.blockMap
    ∧ getBlock
        (placeBlock (placeBlock (mkStore 8 8 8) 0 0 0 1).1 0 0 0 1).1 0 0 0 =
        some 1
    ∧ getBlockCount
        (placeBlock (placeBlock (mkStore 8 8 8) 0 0 0 1).1 0 0 0 1).1 =
        getBlockCount (placeBlock (mkStore 8 8 8) 0 0 0 1).1
    ∧ (placeBlock (placeBlock (mkStore 8 8 8) 0 0 0 1).1 0 0 0 1).1.version =
        (placeBlock (mkStore 8 8 8) 0 0 0 1).1.version + 1 :=
  placeBlock_idempotent_amended (mkStore 8 8 8) 0 0 0 1 (by decide)

/-- C5: exporting a store with unique map keys (every store a JS `Map` can
reach) and importing the snapshot into a fresh empty store reproduces the
block count and every per-coordinate lookup. -/
theorem export_import_roundtrip (st : WorldStore) (sx sy sz : ℤ)
    (h : WF st) :
    getBlockCount (importWorld (mkStore sx sy sz) (exportWorld st)) =
      getBlockCount st
    ∧ ∀ x y z : ℤ,
        getBlock (importWorld (mkStore sx sy sz) (exportWorld st)) x y z =
          getBlock st x y z := by
  have hmap : (importWorld (mkStore sx sy sz) (exportWorld st)).blockMap =
      st.blockMap := by
    show (st.blockMap.map
        (fun e => (⟨e.1.1, e.1.2.1, e.1.2.2, e.2⟩ : BlockEntry))).foldl
        (fun m b => mapSet m (b.x, b.y, b.z) b.id) [] = st.blockMap
    rw [List.foldl_map]
    exact foldl_set_eq_append st.blockMap [] (fun k _ => rfl) h
  constructor
  · show (importWorld (mkStore sx sy sz) (exportWorld st)).blockMap.length =
      st.blockMap.length
    rw [hmap]
  · intro x y z
    show mapGet (importWorld (mkStore sx sy sz) (exportWorld st)).blockMap
        (x, y, z) = mapGet st.blockMap (x, y, z)
    rw [hmap]

/-- A small store with two placed blocks, used as the round-trip witness
input (the spec scenario of §8: size `(4,4,4)`, id 1 at `(0,0,0)`, id 2 at
`(1,0,0)`). -/
def demoStore : WorldStore :=
  (placeBlock (placeBlock (mkStore 4 4 4) 0 0 0 1).1 1 0 0 2).1

/-- C5 witness: the round-trip at the concrete two-block store. -/
theorem export_import_roundtrip_witness :
    getBlockCount (importWorld (mkStore 4 4 4) (exportWorld demoStore)) =
      getBlockCount demoStore
    ∧ ∀ x y z : ℤ,
        getBlock (importWorld (mkStore 4 4 4) (exportWorld demoStore)) x y z =
          getBlock demoStore x y z :=
  export_import_roundtrip demoStore 4 4 4 (by decide)

/-- C10: after an import, the map's keys are unique — a coordinate is never
held twice, so `count()` counts it once — and the value at every coordinate
is the id of the last entry of the imported array with that coordinate. -/
theorem importWorld_last_entry_wins (st : WorldStore) (data : WorldData) :
    (mapKeys (importWorld st data).blockMap).Nodup
    ∧ ∀ c : Coord,
        mapGet (importWorld st data).blockMap c =
          match data.blocks.reverse.find?
              (fun b => ((b.x, b.y, b.z) : Coord) = c) with
          | some b => some b.id
          | none => none := by
  constructor
  · exact nodup_mapKeys_foldl_set data.blocks [] (by simp [mapKeys])
  · intro c
    show mapGet
        (data.blocks.foldl (fun m b => mapSet m (b.x, b.y, b.z) b.id) []) c =
      _
    rw [mapGet_foldl_set]
    cases data.blocks.reverse.find? (fun b => ((b.x, b.y, b.z) : Coord) = c)
      with
    | some b => rfl
    | none => rfl

/-- C4 counterexample: a parsed object with all three top-level fields
present — `version` the empty string, `size` `(8,8,8)`, `blocks` `[]` — is
still rejected, because the source tests JS truthiness (`!data.version`)
rather than absence; so "errors exactly when a field is absent" is false. -/
theorem importWorldFromJSON_empty_version_rejected :
    importFails ⟨some "", some ⟨8, 8, 8⟩, some []⟩ = true
    ∧ (⟨some "", some ⟨8, 8, 8⟩, some []⟩ : ParsedWorld).version ≠ none
    ∧ (⟨some "", some ⟨8, 8, 8⟩, some []⟩ : ParsedWorld).size ≠ none
    ∧ (⟨some "", some ⟨8, 8, 8⟩, some []⟩ : ParsedWorld).blocks ≠ none := by
  refine ⟨rfl, ?_, ?_, ?_⟩ <;> simp

/-- C4 amended: `importWorldFromJSON` reports the invalid-format error
exactly when `version` is absent or falsy (the empty string), or `size` or
`blocks` is absent; when it errors the import flow leaves the store
completely unmodified; when the three fields are present and truthy the
structure is accepted as-is (no catalog validation of block ids) and
replaces the store's world data wholesale. -/
theorem importWorldFromJSON_amended_spec (d : ParsedWorld)
    (st : WorldStore) :
    (importFails d = true ↔
      d.version = none ∨ d.version = some "" ∨ d.size = none ∨
        d.blocks = none)
    ∧ (importFails d = true → handleImportFile st d = st)
    ∧ (∀ v s b, d.version = some v → d.size = some s → d.blocks = some b →
        v ≠ "" →
        importWorldFromJSON d = Except.ok ⟨v, s, b⟩
        ∧ handleImportFile st d = importWorld st ⟨v, s, b⟩) := by
  obtain ⟨ver, sz, bl⟩ := d
  refine ⟨?_, ?_, ?_⟩
  · cases ver with
    | none => simp [importFails, importWorldFromJSON]
    | some v =>
      cases sz with
      | none => simp [importFails, importWorldFromJSON]
      | some s =>
        cases bl with
        | none => simp [importFails, importWorldFromJSON]
        | some b =>
          by_cases hv : v = "" <;>
            simp [importFails, importWorldFromJSON, hv]
  · intro h
    cases hi : importWorldFromJSON ⟨ver, sz, bl⟩ with
    | error e => simp [handleImportFile, hi]
    | ok w => simp [importFails, hi] at h
  · intro v s b hv hs hb hne
    cases hv
    cases hs
    cases hb
    have hok : importWorldFromJSON ⟨some v, some s, some b⟩ =
        Except.ok ⟨v, s, b⟩ := by
      simp [importWorldFromJSON, hne]
    exact ⟨hok, by simp [handleImportFile, hok]⟩

/-- C2: converting a grid coordinate to continuous space — the cell center
`(x - WORLD_SIZE/2 + 0.5, y + 0.5, z - WORLD_SIZE/2 + 0.5)` — and back with
`worldToGrid` (floor of `(wx + WORLD_SIZE/2, wy, wz + WORLD_SIZE/2)`)
returns exactly the original coordinate, for every integer grid
coordinate. -/
theorem gridToWorld_worldToGrid_roundtrip (x y z : ℤ) :
    worldToGrid (gridToWorld x y z).1 (gridToWorld x y z).2.1
      (gridToWorld x y z).2.2 = (x, y, z) := by
  show (⌊(x : ℚ) - WORLD_SIZE / 2 + 1/2 + WORLD_SIZE / 2⌋,
        ⌊(y : ℚ) + 1/2⌋,
        ⌊(z : ℚ) - WORLD_SIZE / 2 + 1/2 + WORLD_SIZE / 2⌋) =
      ((x : ℤ), (y : ℤ), (z : ℤ))
  rw [show (x : ℚ) - WORLD_SIZE / 2 + 1/2 + WORLD_SIZE / 2 = (x : ℚ) + 1/2
      by ring,
    show (z : ℚ) - WORLD_SIZE / 2 + 1/2 + WORLD_SIZE / 2 = (z : ℚ) + 1/2
      by ring,
    floor_intCast_add_half, floor_intCast_add_half, floor_intCast_add_half]

/-- C9 counterexample: the two block-face grid derivations are the same
function — there is no block-face intersection at which the orbit-mode
query and the FPS-mode query derive different placement cells, contrary to
the claimed divergence. -/
theorem fps_orbit_blockGrid_identical :
    getFPSIntersection_blockGrid = getIntersection_blockGrid := by
  funext pos nrm
  rfl

/-- C9 amended: the orbit-mode and FPS-mode ray queries use identical
face-normal offset math — both apply the `-0.5` bias on the vertical axis —
so they derive the same placement grid cell from every hit. -/
theorem fps_orbit_same_placement_amended (pos nrm : ℚ × ℚ × ℚ) :
    getFPSIntersection_blockGrid pos nrm = getIntersection_blockGrid pos nrm
    ∧ getFPSIntersection_blockGrid pos nrm =
        (⌊pos.1 + nrm.1 + WORLD_SIZE / 2⌋,
         ⌊pos.2.1 + nrm.2.1 - 1/2⌋,
         ⌊pos.2.2 + nrm.2.2 + WORLD_SIZE / 2⌋) :=
  ⟨rfl, rfl⟩

/-- C7 counterexample: at yaw 0 and delta 1, with forward and right both
active, the squared magnitude of the horizontal velocity increment is
`2 * (FPS_MOVE_SPEED * 1)^2` — strictly more than the single-input value
`(FPS_MOVE_SPEED * 1)^2` the claim asserts, because the source sums the
forward and right unit vectors without normalizing. -/
theorem fps_diagonal_speed_cex :
    ((fpsVelocityDelta 0 1 ⟨true, false, false, true, false, false⟩).1 ^ 2 +
        (fpsVelocityDelta 0 1
          ⟨true, false, false, true, false, false⟩).2.2 ^ 2) =
      2 * (FPS_MOVE_SPEED * 1) ^ 2
    ∧ 2 * (FPS_MOVE_SPEED * 1) ^ 2 ≠ (FPS_MOVE_SPEED * 1) ^ 2
    ∧ (FPS_MOVE_SPEED * 1 : ℝ) ^ 2 < 2 * (FPS_MOVE_SPEED * 1) ^ 2 := by
  refine ⟨?_, by norm_num [FPS_MOVE_SPEED], by norm_num [FPS_MOVE_SPEED]⟩
  simp only [fpsVelocityDelta, flagNum]
  rw [Real.sin_zero, Real.cos_zero]
  ring

/-- C7 amended: the thrust combination is not normalized — for every yaw
and delta, with forward and right both active the horizontal velocity
increment has squared magnitude `2 * (FPS_MOVE_SPEED * delta)^2` (the
single-input squared magnitude is `(FPS_MOVE_SPEED * delta)^2`), so
diagonal speed exceeds orthogonal speed by the factor `√2`. -/
theorem fps_diagonal_speed_amended (yaw delta : ℝ) :
    ((fpsVelocityDelta yaw delta
        ⟨true, false, false, true, false, false⟩).1 ^ 2 +
      (fpsVelocityDelta yaw delta
        ⟨true, false, false, true, false, false⟩).2.2 ^ 2) =
      2 * (FPS_MOVE_SPEED * delta) ^ 2
    ∧ ((fpsVelocityDelta yaw delta
          ⟨true, false, false, false, false, false⟩).1 ^ 2 +
        (fpsVelocityDelta yaw delta
          ⟨true, false, false, false, false, false⟩).2.2 ^ 2) =
      (FPS_MOVE_SPEED * delta) ^ 2 := by
  have hpy := Real.sin_sq_add_cos_sq yaw
  constructor
  · simp only [fpsVelocityDelta, flagNum]
    linear_combination (2 * (FPS_MOVE_SPEED * delta) ^ 2) * hpy
  · simp only [fpsVelocityDelta, flagNum]
    linear_combination ((FPS_MOVE_SPEED * delta) ^ 2) * hpy

/-- The block-branch grid derivation steps exactly one cell from the struck
cell along any integer face offset: applied to the mesh center of cell
`(x,y,z)` and an offset `(dx,dy,dz)`, it yields `(x+dx, y+dy, z+dz)`. -/
theorem blockGrid_step (x y z dx dy dz : ℤ) :
    getIntersection_blockGrid (gridToWorld x y z)
        ((dx : ℚ), (dy : ℚ), (dz : ℚ)) =
      (x + dx, y + dy, z + dz) := by
  show (⌊(x : ℚ) - WORLD_SIZE / 2 + 1/2 + dx + WORLD_SIZE / 2⌋,
        ⌊(y : ℚ) + 1/2 + dy - 1/2⌋,
        ⌊(z : ℚ) - WORLD_SIZE / 2 + 1/2 + dz + WORLD_SIZE / 2⌋) = _
  rw [show (x : ℚ) - WORLD_SIZE / 2 + 1/2 + dx + WORLD_SIZE / 2 =
        ((x + dx : ℤ) : ℚ) + 1/2 by push_cast; ring,
    show (y : ℚ) + 1/2 + dy - 1/2 = ((y + dy : ℤ) : ℚ) by push_cast; ring,
    show (z : ℚ) - WORLD_SIZE / 2 + 1/2 + dz + WORLD_SIZE / 2 =
        ((z + dz : ℤ) : ℚ) + 1/2 by push_cast; ring,
    floor_intCast_add_half, floor_intCast_add_half, Int.floor_intCast]

/-- C3: when the ray strikes an occupied cell, the query reports the struck
cell's coordinate (`blockKey`, used for removal) and derives the placement
target by stepping exactly one unit from the struck cell along the outward
normal of the hit face (shown for all six faces); in particular a ray cast
straight down from above a block at `(2,0,2)` hits its top face and the
query reports struck coordinate `(2,0,2)` and placement target
`(2,1,2)`. -/
theorem ray_block_hit_spec :
    (∀ x y z : ℤ,
      getIntersection_blockGrid (gridToWorld x y z) (1, 0, 0) =
          (x + 1, y, z)
      ∧ getIntersection_blockGrid (gridToWorld x y z) (-1, 0, 0) =
          (x - 1, y, z)
      ∧ getIntersection_blockGrid (gridToWorld x y z) (0, 1, 0) =
          (x, y + 1, z)
      ∧ getIntersection_blockGrid (gridToWorld x y z) (0, -1, 0) =
          (x, y - 1, z)
      ∧ getIntersection_blockGrid (gridToWorld x y z) (0, 0, 1) =
          (x, y, z + 1)
      ∧ getIntersection_blockGrid (gridToWorld x y z) (0, 0, -1) =
          (x, y, z - 1))
    ∧ getIntersection ⟨-59/2, 5, -59/2, 0, -1, 0⟩ [(2, 0, 2)] =
        some ⟨2, 1, 2, true, some (2, 0, 2)⟩ := by
  constructor
  · intro x y z
    refine ⟨?_, ?_, ?_, ?_, ?_, ?_⟩
    · simpa using blockGrid_step x y z 1 0 0
    · simpa using blockGrid_step x y z (-1) 0 0
    · simpa using blockGrid_step x y z 0 1 0
    · simpa using blockGrid_step x y z 0 (-1) 0
    · simpa using blockGrid_step x y z 0 0 1
    · simpa using blockGrid_step x y z 0 0 (-1)
  · have hc : gridToWorld 2 0 2 = (-59/2, 1/2, -59/2) := by
      norm_num [gridToWorld, WORLD_SIZE]
    have hg : groundCast ⟨-59/2, 5, -59/2, 0, -1, 0⟩ =
        some (5, -59/2, -59/2) := by
      norm_num [groundCast]
    have hsx : axisSlab (-59/2) 0 (-59/2 - 1/2) (-59/2 + 1/2)
        (-1, 0, 0) (1, 0, 0) = some (none, none) := by
      norm_num [axisSlab]
    have hsy : axisSlab 5 (-1) (1/2 - 1/2) (1/2 + 1/2)
        (0, -1, 0) (0, 1, 0) = some (some (4, (0, 1, 0)), some 5) := by
      norm_num [axisSlab]
    have hbox : rayBox ⟨-59/2, 5, -59/2, 0, -1, 0⟩ (-59/2, 1/2, -59/2) =
        some (4, (0, 1, 0)) := by
      show (match axisSlab (-59/2) 0 (-59/2 - 1/2) (-59/2 + 1/2)
              (-1, 0, 0) (1, 0, 0),
            axisSlab 5 (-1) (1/2 - 1/2) (1/2 + 1/2)
              (0, -1, 0) (0, 1, 0),
            axisSlab (-59/2) 0 (-59/2 - 1/2) (-59/2 + 1/2)
              (0, 0, -1) (0, 0, 1) with
        | some sx, some sy, some sz =>
          match combLo (combLo sx.1 sy.1) sz.1,
              combHi (combHi sx.2 sy.2) sz.2 with
          | some lo, hi => if 0 < lo.1 ∧ belowHi lo.1 hi then some lo
            else none
          | none, _ => none
        | _, _, _ => none) = some (4, (0, 1, 0))
      have hsz : axisSlab (-59/2) 0 (-59/2 - 1/2) (-59/2 + 1/2)
          (0, 0, -1) (0, 0, 1) = some (none, none) := by
        norm_num [axisSlab]
      rw [hsx, hsy, hsz]
      norm_num [combLo, combHi, belowHi]
    have hcast : castRay ⟨-59/2, 5, -59/2, 0, -1, 0⟩ [(2, 0, 2)] =
        some (RawHit.block 4 (0, 1, 0) (2, 0, 2)) := by
      show (((match groundCast ⟨-59/2, 5, -59/2, 0, -1, 0⟩ with
              | some (t, px, pz) => [RawHit.ground t px pz]
              | none => []) ++
             [(2, 0, 2)].filterMap (fun c =>
               (rayBox ⟨-59/2, 5, -59/2, 0, -1, 0⟩
                   (gridToWorld c.1 c.2.1 c.2.2)).map
                 (fun h => RawHit.block h.1 h.2 c))).foldl
          (fun best h =>
            match best with
            | none => some h
            | some b => if h.t < b.t then some h else some b)
          none) = some (RawHit.block 4 (0, 1, 0) (2, 0, 2))
      rw [hg]
      simp only [List.filterMap]
      rw [show gridToWorld (2, 0, 2).1 (2, 0, 2).2.1 (2, 0, 2).2.2 =
          (-59/2, 1/2, -59/2) from hc, hbox]
      norm_num [RawHit.t]
    show (castRay ⟨-59/2, 5, -59/2, 0, -1, 0⟩ [(2, 0, 2)]).map _ = _
    rw [hcast]
    simp only [Option.map_some']
    rw [show gridToWorld (2, 0, 2).1 (2, 0, 2).2.1 (2, 0, 2).2.2 =
        (-59/2, 1/2, -59/2) from hc]
    show some (GridHit.mk ⌊(-59/2 : ℚ) + 0 + WORLD_SIZE / 2⌋
        ⌊(1/2 : ℚ) + 1 - 1/2⌋
        ⌊(-59/2 : ℚ) + 0 + WORLD_SIZE / 2⌋ true (some (2, 0, 2))) = _
    norm_num [WORLD_SIZE]
